import Mathlib

/-!
Shallow embedding of the optimization and scenario-classification engine of a
shopping-list price-comparison assistant
(src/agents/optimization/agent.py, src/agents/response/agent.py,
src/data/models.py).

Modelling conventions: Python floats are modelled as exact rationals, Python
dicts as insertion-ordered association lists, Python sets as lists
deduplicated in first-appearance order, and a raised-then-caught exception as
an explicit error value in the returned state.  String formatting with fixed
decimal places is abstracted by `toString`.
-/

set_option maxHeartbeats 1000000

namespace SmartShopping


/-- One store's price for one product (dataclass `PriceOption` in
src/data/models.py; the fields not consulted by the optimization or
classification code are omitted, `folder_link` is kept as the one optional
field the response agent reads). -/
structure PriceOption where
  product_name : String
  price : ℚ
  supermarket_name : String
  folder_link : Option String := none
deriving Repr, DecidableEq

/-- The offer index: mapping product name to the ordered list of its offers
(`price_options : Dict[str, List[Dict[str, Any]]]`). -/
abbrev PriceOptions := List (String × List PriceOption)

/-- A store bundle (dataclass `SupermarketOption` / the dicts with keys
`supermarket_name`, `total_price`, `items`). -/
structure SupermarketOption where
  supermarket_name : String
  total_price : ℚ
  items : List PriceOption
deriving Repr, DecidableEq

/-- The recommendation dict assembled by the optimization agent. -/
structure Recommendation where
  single_store_option : SupermarketOption
  multi_store_option : List SupermarketOption
  savings : ℚ
  savings_percentage : ℚ
  products_not_found : List String
  total_requested_items : ℤ
deriving Repr, DecidableEq

/-- The `OptimizationState` TypedDict of src/agents/optimization/agent.py. -/
structure OptimizationState where
  price_options : PriceOptions
  products_not_found : List String
  total_requested_items : ℤ
  recommendation : Option Recommendation
  error : Option String
deriving Repr, DecidableEq

/-- Python's builtin `min` with a rational-valued key function applied to the
nonempty list `x :: xs`: a left fold that replaces the current minimum only on
a strictly smaller key, hence keeps the first minimum in list order. -/
def pyMinBy {α : Type} (f : α → ℚ) (x : α) (xs : List α) : α :=
  xs.foldl (fun b y => if f y < f b then y else b) x

/-- Adding one store name to the accumulated Python set of store names
(modelled as a list deduplicated in first-appearance order). -/
def addStore (acc : List String) (s : String) : List String :=
  if s ∈ acc then acc else acc ++ [s]

/-- Folding the store names of one product's offer list into the set. -/
def storesOfOptions (acc : List String) (options : List PriceOption) : List String :=
  options.foldl (fun a o => addStore a o.supermarket_name) acc

/-- The set of all supermarket names appearing anywhere in the offer index
(`all_supermarkets` in `find_best_single_store`). -/
def allSupermarkets (po : PriceOptions) : List String :=
  po.foldl (fun acc p => storesOfOptions acc p.2) []

/-- The first offer for `store` within one product's offer list (the inner
`for option in options` loop with `break` on the first match). -/
def optionInStore (store : String) (options : List PriceOption) : Option PriceOption :=
  options.find? (fun o => o.supermarket_name == store)

/-- The first-matching offers of `store`, one per product that the store
carries, in product order: the `items_in_this_store` list. -/
def itemsInStore (store : String) (po : PriceOptions) : List PriceOption :=
  po.filterMap (fun p => optionInStore store p.2)

/-- The running total and item list accumulated by the per-store loop of
`find_best_single_store`. -/
def storeScan (store : String) (po : PriceOptions) : ℚ × List PriceOption :=
  po.foldl (fun acc p =>
    match optionInStore store p.2 with
    | some o => (acc.1 + o.price, acc.2 ++ [o])
    | none => acc) (0, [])

/-- The price total accumulated for one store. -/
def storeTotal (store : String) (po : PriceOptions) : ℚ :=
  ((itemsInStore store po).map (·.price)).sum

/-- The per-store candidate entries (name, total, items) kept in
`supermarket_totals` / `supermarket_items_found`: only stores with at least
one matched item are stored. -/
def supermarketEntries (po : PriceOptions) : List (String × ℚ × List PriceOption) :=
  (allSupermarkets po).filterMap (fun s =>
    let scan := storeScan s po
    if scan.2 = [] then none else some (s, scan.1, scan.2))

/-- The error message of the no-viable-store failure path. -/
def noStoreMsg : String :=
  "Não foi possível calcular os totais (soma de preços unitários) para nenhum supermercado."

/-- The `find_best_single_store` node of src/agents/optimization/agent.py.
The Python `min` over the totals dict is modelled by `pyMinBy` on the entry
list; the `except` clause is unreachable for well-typed input, so the only
error path is the empty-candidates branch. -/
def find_best_single_store (state : OptimizationState) : OptimizationState :=
  match supermarketEntries state.price_options with
  | [] =>
    { price_options := state.price_options
      products_not_found := state.products_not_found
      total_requested_items := state.total_requested_items
      recommendation := none
      error := some noStoreMsg }
  | e :: es =>
    let best := pyMinBy (·.2.1) e es
    { price_options := state.price_options
      products_not_found := state.products_not_found
      total_requested_items := state.total_requested_items
      recommendation := some
        { single_store_option :=
            { supermarket_name := best.1
              total_price := best.2.1
              items := best.2.2 }
          multi_store_option := []
          savings := 0
          savings_percentage := 0
          products_not_found := state.products_not_found
          total_requested_items := state.total_requested_items }
      error := none }

/-- For every product with at least one offer, the offer picked by
`min(options, key price)`: the cheapest offer, first minimum on ties
(the `best_prices` dict of `find_best_multi_store`, keyed by product). -/
def bestPrices (po : PriceOptions) : List (String × PriceOption) :=
  po.filterMap (fun p =>
    match p.2 with
    | [] => none
    | o :: os => some (p.1, pyMinBy (·.price) o os))

/-- Inserting one picked offer into the per-store grouping dict: appended to
the existing store entry, or opening a new entry at the end. -/
def addPick : List (String × List PriceOption) → PriceOption →
    List (String × List PriceOption)
  | [], o => [(o.supermarket_name, [o])]
  | (s, items) :: rest, o =>
    if s = o.supermarket_name then (s, items ++ [o]) :: rest
    else (s, items) :: addPick rest o

/-- The `supermarket_items` grouping dict built by iterating over the picked
offers in product order. -/
def groupByStore (picks : List PriceOption) : List (String × List PriceOption) :=
  picks.foldl addPick []

/-- The per-product minimum prices, in product order (the prices summed into
`multi_store_total`). -/
def minPrices (po : PriceOptions) : List ℚ :=
  po.filterMap (fun p =>
    match p.2 with
    | [] => none
    | o :: os => some ((os.map (·.price)).foldl min o.price))

/-- The error state message produced when the multi-store node runs without a
prior single-store recommendation (the caught `ValueError`). -/
def precedenceMsg : String :=
  "Erro ao encontrar melhor opção de múltiplos supermercados (soma unitária): Recomendação de único supermercado não encontrada"

/-- The `find_best_multi_store` node of src/agents/optimization/agent.py.
The `raise ValueError` on a missing recommendation is caught by the
function's own `except` clause, which returns the input fields unchanged
with the error string set; `recommendation` is `state.get` of the input
recommendation, which is `None` on that path. -/
def find_best_multi_store (state : OptimizationState) : OptimizationState :=
  match state.recommendation with
  | none =>
    { price_options := state.price_options
      products_not_found := state.products_not_found
      total_requested_items := state.total_requested_items
      recommendation := none
      error := some precedenceMsg }
  | some prevRec =>
    let single_store_total := prevRec.single_store_option.total_price
    let picks := (bestPrices state.price_options).map (·.2)
    let multi_store_total := (picks.map (·.price)).sum
    let multi_store_options := (groupByStore picks).map
      (fun g => SupermarketOption.mk g.1 ((g.2.map (·.price)).sum) g.2)
    let savings := single_store_total - multi_store_total
    let savings_percentage :=
      if single_store_total > 0 then savings / single_store_total * 100 else 0
    { price_options := state.price_options
      products_not_found := state.products_not_found
      total_requested_items := state.total_requested_items
      recommendation := some
        { prevRec with
          multi_store_option := multi_store_options
          savings := savings
          savings_percentage := savings_percentage
          total_requested_items := state.total_requested_items }
      error := none }

/-- Invariant of the grouping dict: store keys are distinct and every item
in a group belongs to the group's store. -/
def goodGroups (gs : List (String × List PriceOption)) : Prop :=
  (gs.map (·.1)).Nodup ∧ ∀ g ∈ gs, ∀ o ∈ g.2, o.supermarket_name = g.1

/-- The sum of the per-group price sums. -/
def groupsSum (gs : List (String × List PriceOption)) : ℚ :=
  (gs.map (fun g => (g.2.map (·.price)).sum)).sum

/-- The `detalhes` dict returned by `classificar_cenario` for every scenario
except r0 (which returns the empty dict, modelled as `none` upstream). -/
structure Detalhes where
  diferenca_valor : ℚ
  diferenca_percentual : ℚ
  mercado_central : String
  max_itens_mercado : ℤ
  total_encontrados : ℤ
deriving Repr, DecidableEq

/-- The 4-tuple (cenario, justificativa, recomendacao, detalhes) returned by
`classificar_cenario` in src/agents/response/agent.py. -/
structure Classificacao where
  cenario : String
  justificativa : String
  recomendacao : String
  detalhes : Option Detalhes
deriving Repr, DecidableEq

/-- Python's `max(encontrados_por_mercado.values()) if encontrados_por_mercado
else 0`. -/
def maxItensMercado (epm : List (String × ℤ)) : ℤ :=
  match epm with
  | [] => 0
  | e :: es => (es.map (·.2)).foldl max e.2

/-- Stores attaining the maximum found-count (`mercado_max_itens`). -/
def mercadoMaxItens (epm : List (String × ℤ)) : List String :=
  (epm.filter (fun p => p.2 == maxItensMercado epm)).map (·.1)

/-- Stores whose found-count equals the requested total (`mercado_completo`). -/
def mercadoCompleto (total_itens : ℤ) (epm : List (String × ℤ)) : List String :=
  (epm.filter (fun p => p.2 == total_itens)).map (·.1)

/-- The shared sentence opening every recommendation text. -/
def analiseBase : String :=
  "Analisamos nos folders de promoção quais mercados possuem mais itens e qual a combinação é mais barata."

/-- The `diferenca` local of `classificar_cenario`. -/
def diferencaValor (pc pd : ℚ) : ℚ := |pc - pd|

/-- The `percentual` local of `classificar_cenario`: the price difference as a
percentage of the single-store total, 0 when that total is not positive. -/
def percentualDiferenca (pc pd : ℚ) : ℚ :=
  if pc > 0 then diferencaValor pc pd / pc * 100 else 0

/-- The `detalhes` dict shared by all scenarios except r0. -/
def detalhesDict (pc pd : ℚ) (nome : String) (max_itens itens_enc : ℤ) : Detalhes :=
  ⟨diferencaValor pc pd, percentualDiferenca pc pd, nome, max_itens, itens_enc⟩

/-- The `classificar_cenario` function of src/agents/response/agent.py.
Totals are exact rationals; the Python float literals 0.3, 0.7, 0.01 are the
corresponding rationals; fixed-decimal string formatting is abstracted by
`toString`.  The function's local variables (`max_itens_mercado`,
`mercado_max_itens`, `mercado_completo`, `diferenca`, `percentual`,
`detalhes`) are lifted to the named definitions above.  The only operation of
the function that can raise for well-typed input is the
`mercado_max_itens[0]` index in the r2 branch, modelled as an explicit
`Except.error`. -/
def classificar_cenario (total_itens itens_encontrados : ℤ)
    (encontrados_por_mercado : List (String × ℤ))
    (preco_centralizado preco_distribuido : ℚ)
    (nome_mercado_centralizado : String) : Except String Classificacao :=
  if itens_encontrados = 0 then
    .ok ⟨"r0", "Nenhum item encontrado",
      "Tente outros termos de busca ou verifique a disponibilidade em outros mercados.",
      none⟩
  else
    if mercadoCompleto total_itens encontrados_por_mercado = [] then
      if (maxItensMercado encontrados_por_mercado : ℚ) ≤ (total_itens : ℚ) * 0.3 then
        .ok ⟨"r1", "Produtos muito dispersos entre mercados",
          analiseBase ++ " Sendo assim, a recomendação é comprar em vários mercados para obter mais itens da sua lista.",
          some (detalhesDict preco_centralizado preco_distribuido nome_mercado_centralizado (maxItensMercado encontrados_por_mercado) itens_encontrados)⟩
      else if (maxItensMercado encontrados_por_mercado : ℚ) ≤ (total_itens : ℚ) * 0.7 then
        match mercadoMaxItens encontrados_por_mercado with
        | [] => .error "IndexError: list index out of range"
        | m :: _ =>
          .ok ⟨"r2", "Produtos moderadamente dispersos",
            analiseBase ++ " Sendo assim, a recomendação é comprar principalmente no " ++ m ++ " e complementar nos demais.",
            some (detalhesDict preco_centralizado preco_distribuido nome_mercado_centralizado (maxItensMercado encontrados_por_mercado) itens_encontrados)⟩
      else if (maxItensMercado encontrados_por_mercado : ℚ) ≥ (total_itens : ℚ) * 0.7 then
        if preco_centralizado ≤ preco_distribuido then
          .ok ⟨"r3", "Quase todos os itens disponíveis no " ++ nome_mercado_centralizado,
            analiseBase ++ " Sendo assim, a recomendação é comprar tudo no " ++ nome_mercado_centralizado ++ ", pois é mais econômico.",
            some (detalhesDict preco_centralizado preco_distribuido nome_mercado_centralizado (maxItensMercado encontrados_por_mercado) itens_encontrados)⟩
        else if percentualDiferenca preco_centralizado preco_distribuido > 10 then
          .ok ⟨"r4", "Quase todos no " ++ nome_mercado_centralizado ++ ", mas dividir é mais barato",
            analiseBase ++ " Sendo assim, vale a pena dividir a compra para economizar R$ " ++ toString (diferencaValor preco_centralizado preco_distribuido) ++ " (" ++ toString (percentualDiferenca preco_centralizado preco_distribuido) ++ "%).",
            some (detalhesDict preco_centralizado preco_distribuido nome_mercado_centralizado (maxItensMercado encontrados_por_mercado) itens_encontrados)⟩
        else
          .ok ⟨"r4", "Quase todos no " ++ nome_mercado_centralizado,
            analiseBase ++ " A diferença de R$ " ++ toString (diferencaValor preco_centralizado preco_distribuido) ++ " talvez não compense o esforço de dividir a compra.",
            some (detalhesDict preco_centralizado preco_distribuido nome_mercado_centralizado (maxItensMercado encontrados_por_mercado) itens_encontrados)⟩
      else
        .ok ⟨"r5", "Nenhum mercado tem todos os itens",
          analiseBase ++ " Sendo assim, é necessário dividir suas compras entre mercados.",
          some (detalhesDict preco_centralizado preco_distribuido nome_mercado_centralizado (maxItensMercado encontrados_por_mercado) itens_encontrados)⟩
    else
      if |preco_centralizado - preco_distribuido| < 0.01 then
        .ok ⟨"r8", "Preços praticamente iguais entre as opções",
          analiseBase ++ " Sendo assim, escolha o mercado mais conveniente para você. O " ++ nome_mercado_centralizado ++ " tem todos os itens.",
          some (detalhesDict preco_centralizado preco_distribuido nome_mercado_centralizado (maxItensMercado encontrados_por_mercado) itens_encontrados)⟩
      else if preco_centralizado < preco_distribuido then
        .ok ⟨"r6", "O " ++ nome_mercado_centralizado ++ " tem todos os itens pelo menor preço",
          analiseBase ++ " Sendo assim, compre tudo no " ++ nome_mercado_centralizado ++ " e economize R$ " ++ toString (diferencaValor preco_centralizado preco_distribuido) ++ ".",
          some (detalhesDict preco_centralizado preco_distribuido nome_mercado_centralizado (maxItensMercado encontrados_por_mercado) itens_encontrados)⟩
      else
        if percentualDiferenca preco_centralizado preco_distribuido ≤ 5 then
          .ok ⟨"r7", "Diferença pequena de preço",
            analiseBase ++ " Sendo assim, comprar tudo no " ++ nome_mercado_centralizado ++ " é mais prático. A diferença é apenas R$ " ++ toString (diferencaValor preco_centralizado preco_distribuido) ++ ".",
            some (detalhesDict preco_centralizado preco_distribuido nome_mercado_centralizado (maxItensMercado encontrados_por_mercado) itens_encontrados)⟩
        else
          .ok ⟨"r7b", "Distribuir é significativamente mais barato",
            analiseBase ++ " Sendo assim, vale a pena dividir suas compras para economizar R$ " ++ toString (diferencaValor preco_centralizado preco_distribuido) ++ " (" ++ toString (percentualDiferenca preco_centralizado preco_distribuido) ++ "%).",
            some (detalhesDict preco_centralizado preco_distribuido nome_mercado_centralizado (maxItensMercado encontrados_por_mercado) itens_encontrados)⟩

/-- The list of multi-store bundles produced by `find_best_multi_store`: the
grouped picks, one `SupermarketOption` per store. -/
def multiBundles (po : PriceOptions) : List SupermarketOption :=
  (groupByStore ((bestPrices po).map (·.2))).map
    (fun g => SupermarketOption.mk g.1 ((g.2.map (·.price)).sum) g.2)

/-- Sample state: two products, two stores, both stores carry something. -/
def demoState : OptimizationState :=
  { price_options :=
      [("arroz", [{ product_name := "arroz", price := 10, supermarket_name := "Mercado A" },
                  { product_name := "arroz", price := 8, supermarket_name := "Mercado B" }]),
       ("leite", [{ product_name := "leite", price := 4, supermarket_name := "Mercado A" }])]
    products_not_found := []
    total_requested_items := 2
    recommendation := none
    error := none }

/-- Sample state for the no-viable-store failure: a product present as a key
with an empty offer list. -/
def emptyOffersState : OptimizationState :=
  { price_options := [("arroz", []), ("leite", [])]
    products_not_found := ["arroz", "leite"]
    total_requested_items := 2
    recommendation := none
    error := none }

/-- Sample state whose recommendation is absent. -/
def noRecState : OptimizationState :=
  { price_options := [("arroz", [{ product_name := "arroz", price := 10, supermarket_name := "Mercado A" }])]
    products_not_found := []
    total_requested_items := 1
    recommendation := none
    error := none }

/-- Sample single-store recommendation over `demoState`. -/
def demoRec : Recommendation :=
  { single_store_option :=
      { supermarket_name := "Mercado A"
        total_price := 14
        items := [{ product_name := "arroz", price := 10, supermarket_name := "Mercado A" },
                  { product_name := "leite", price := 4, supermarket_name := "Mercado A" }] }
    multi_store_option := []
    savings := 0
    savings_percentage := 0
    products_not_found := []
    total_requested_items := 2 }

/-- The sample state after the single-store step. -/
def demoStateWithRec : OptimizationState :=
  { demoState with recommendation := some demoRec }

/-- A negative price offer, used to probe the absence of input validation. -/
def negOffer : PriceOption :=
  { product_name := "arroz", price := -5, supermarket_name := "Mercado B" }

/-- A recommendation with a negative single-store total. -/
def negRec : Recommendation :=
  { single_store_option :=
      { supermarket_name := "Mercado B", total_price := -10, items := [negOffer] }
    multi_store_option := []
    savings := 0
    savings_percentage := 0
    products_not_found := []
    total_requested_items := 1 }

/-- A state carrying negative totals into the savings computation. -/
def negState : OptimizationState :=
  { price_options := [("arroz", [negOffer])]
    products_not_found := []
    total_requested_items := 1
    recommendation := some negRec
    error := none }

/-- Exact rational value of the IEEE-754 double nearest to 49.99.  The Python
classifier receives its totals as doubles, so 49.99 arrives as this value; at
this input the single float subtraction the branch condition performs is exact
(the operands are within a factor of two), so exact rational arithmetic agrees
with the float run. -/
def precoDistribuidoE2E1 : ℚ := 7035467042882847 / 140737488355328

theorem pyMinBy_nil {α : Type} (f : α → ℚ) (x : α) : pyMinBy f x [] = x := rfl

theorem pyMinBy_cons {α : Type} (f : α → ℚ) (x y : α) (ys : List α) :
    pyMinBy f x (y :: ys) = pyMinBy f (if f y < f x then y else x) ys := rfl

/-- The element returned by `pyMinBy` splits the list into a strict-greater
prefix and a greater-or-equal suffix: it is the first minimum. -/
theorem pyMinBy_first_min {α : Type} (f : α → ℚ) (x : α) (xs : List α) :
    ∃ l₁ l₂, x :: xs = l₁ ++ pyMinBy f x xs :: l₂ ∧
      (∀ y ∈ l₁, f (pyMinBy f x xs) < f y) ∧
      (∀ y ∈ l₂, f (pyMinBy f x xs) ≤ f y) := by
  induction xs generalizing x with
  | nil => exact ⟨[], [], rfl, by simp, by simp⟩
  | cons y ys ih =>
    rw [pyMinBy_cons]
    by_cases hyx : f y < f x
    · rw [if_pos hyx]
      obtain ⟨l₁, l₂, hsplit, h₁, h₂⟩ := ih y
      have hmy : f (pyMinBy f y ys) ≤ f y := by
        cases l₁ with
        | nil =>
          simp only [List.nil_append, List.cons.injEq] at hsplit
          rw [← hsplit.1]
        | cons a l₁' =>
          simp only [List.cons_append, List.cons.injEq] at hsplit
          have h := h₁ a (List.mem_cons_self a l₁')
          rw [← hsplit.1] at h
          exact le_of_lt h
      refine ⟨x :: l₁, l₂, ?_, ?_, h₂⟩
      · rw [List.cons_append, ← hsplit]
      · intro z hz
        rcases List.mem_cons.mp hz with hz | hz
        · rw [hz]; exact lt_of_le_of_lt hmy hyx
        · exact h₁ z hz
    · rw [if_neg hyx]
      have hxy : f x ≤ f y := le_of_not_lt hyx
      obtain ⟨l₁, l₂, hsplit, h₁, h₂⟩ := ih x
      cases l₁ with
      | nil =>
        simp only [List.nil_append, List.cons.injEq] at hsplit
        refine ⟨[], y :: ys, ?_, by simp, ?_⟩
        · rw [List.nil_append, ← hsplit.1]
        · intro z hz
          rcases List.mem_cons.mp hz with hz | hz
          · rw [hz, ← hsplit.1]; exact hxy
          · rw [hsplit.2] at hz
            exact h₂ z hz
      | cons a l₁' =>
        simp only [List.cons_append, List.cons.injEq] at hsplit
        have ha : x = a := hsplit.1
        have hys : ys = l₁' ++ pyMinBy f x ys :: l₂ := hsplit.2
        have hax : f (pyMinBy f x ys) < f x := by
          have h := h₁ a (List.mem_cons_self a l₁')
          rw [← ha] at h; exact h
        refine ⟨x :: y :: l₁', l₂, ?_, ?_, h₂⟩
        · conv_lhs => rw [hys]
          simp
        · intro z hz
          rcases List.mem_cons.mp hz with hz | hz
          · rw [hz]; exact hax
          · rcases List.mem_cons.mp hz with hz | hz
            · rw [hz]
              exact lt_of_lt_of_le hax hxy
            · exact h₁ z (List.mem_cons_of_mem a hz)

/-- The result of `pyMinBy` is an element of the list. -/
theorem pyMinBy_mem {α : Type} (f : α → ℚ) (x : α) (xs : List α) :
    pyMinBy f x xs ∈ x :: xs := by
  obtain ⟨l₁, l₂, hsplit, -, -⟩ := pyMinBy_first_min f x xs
  rw [hsplit]
  exact List.mem_append.mpr (Or.inr (List.mem_cons_self _ _))

/-- The result of `pyMinBy` has the least key among all elements. -/
theorem pyMinBy_le {α : Type} (f : α → ℚ) (x : α) (xs : List α) :
    ∀ y ∈ x :: xs, f (pyMinBy f x xs) ≤ f y := by
  obtain ⟨l₁, l₂, hsplit, h₁, h₂⟩ := pyMinBy_first_min f x xs
  intro y hy
  rw [hsplit] at hy
  rcases List.mem_append.mp hy with hy | hy
  · exact le_of_lt (h₁ y hy)
  · rcases List.mem_cons.mp hy with hy | hy
    · rw [hy]
    · exact h₂ y hy

/-- The key of the `pyMinBy` result is the fold of `min` over all keys. -/
theorem pyMinBy_key {α : Type} (f : α → ℚ) (x : α) (xs : List α) :
    f (pyMinBy f x xs) = (xs.map f).foldl min (f x) := by
  induction xs generalizing x with
  | nil => rfl
  | cons y ys ih =>
    rw [pyMinBy_cons, ih, List.map_cons, List.foldl_cons]
    congr 1
    by_cases h : f y < f x
    · rw [if_pos h]
      exact (min_eq_right (le_of_lt h)).symm
    · rw [if_neg h]
      exact (min_eq_left (le_of_not_lt h)).symm

theorem mem_addStore {acc : List String} {s t : String} :
    t ∈ addStore acc s ↔ t ∈ acc ∨ t = s := by
  unfold addStore
  split
  · constructor
    · exact fun h => Or.inl h
    · rintro (h | h)
      · exact h
      · rwa [h]
  · simp [List.mem_append]

theorem mem_storesOfOptions {acc : List String} {opts : List PriceOption} {t : String} :
    t ∈ storesOfOptions acc opts ↔ t ∈ acc ∨ ∃ o ∈ opts, o.supermarket_name = t := by
  induction opts generalizing acc with
  | nil => simp [storesOfOptions]
  | cons o os ih =>
    show t ∈ storesOfOptions (addStore acc o.supermarket_name) os ↔ _
    rw [ih, mem_addStore]
    constructor
    · rintro ((h | h) | ⟨o', ho', h⟩)
      · exact Or.inl h
      · exact Or.inr ⟨o, List.mem_cons_self o os, h.symm⟩
      · exact Or.inr ⟨o', List.mem_cons_of_mem o ho', h⟩
    · rintro (h | ⟨o', ho', h⟩)
      · exact Or.inl (Or.inl h)
      · rcases List.mem_cons.mp ho' with ho' | ho'
        · exact Or.inl (Or.inr (by rw [← ho']; exact h.symm))
        · exact Or.inr ⟨o', ho', h⟩

theorem mem_allSupermarkets {po : PriceOptions} {t : String} :
    t ∈ allSupermarkets po ↔ ∃ p ∈ po, ∃ o ∈ p.2, o.supermarket_name = t := by
  have key : ∀ (acc : List String),
      t ∈ po.foldl (fun acc p => storesOfOptions acc p.2) acc ↔
        t ∈ acc ∨ ∃ p ∈ po, ∃ o ∈ p.2, o.supermarket_name = t := by
    induction po with
    | nil => simp
    | cons p ps ih =>
      intro acc
      show t ∈ ps.foldl _ (storesOfOptions acc p.2) ↔ _
      rw [ih, mem_storesOfOptions]
      constructor
      · rintro ((h | ⟨o, ho, h⟩) | ⟨q, hq, ho⟩)
        · exact Or.inl h
        · exact Or.inr ⟨p, List.mem_cons_self p ps, o, ho, h⟩
        · exact Or.inr ⟨q, List.mem_cons_of_mem p hq, ho⟩
      · rintro (h | ⟨q, hq, o, ho, h⟩)
        · exact Or.inl (Or.inl h)
        · rcases List.mem_cons.mp hq with hq | hq
          · exact Or.inl (Or.inr ⟨o, by rw [← hq]; exact ho, h⟩)
          · exact Or.inr ⟨q, hq, o, ho, h⟩
  rw [allSupermarkets, key []]
  simp

theorem storeScan_go (store : String) (po : PriceOptions) (t : ℚ)
    (items : List PriceOption) :
    po.foldl (fun acc p =>
      match optionInStore store p.2 with
      | some o => (acc.1 + o.price, acc.2 ++ [o])
      | none => acc) (t, items) =
    (t + ((itemsInStore store po).map (·.price)).sum, items ++ itemsInStore store po) := by
  induction po generalizing t items with
  | nil => simp [itemsInStore]
  | cons p ps ih =>
    rw [List.foldl_cons]
    cases h : optionInStore store p.2 with
    | none =>
      rw [ih]
      simp [itemsInStore, List.filterMap_cons, h]
    | some o =>
      simp only [h]
      rw [ih]
      simp [itemsInStore, List.filterMap_cons, h, add_assoc]

/-- The loop result decomposed: total is the sum of the prices of the
first-matching offers, items are exactly those offers. -/
theorem storeScan_eq (store : String) (po : PriceOptions) :
    storeScan store po =
      (((itemsInStore store po).map (·.price)).sum, itemsInStore store po) := by
  rw [storeScan, storeScan_go]
  simp

theorem mem_supermarketEntries {po : PriceOptions} {e : String × ℚ × List PriceOption} :
    e ∈ supermarketEntries po ↔
      e.1 ∈ allSupermarkets po ∧ itemsInStore e.1 po ≠ [] ∧
        e.2.1 = storeTotal e.1 po ∧ e.2.2 = itemsInStore e.1 po := by
  unfold supermarketEntries
  rw [List.mem_filterMap]
  constructor
  · rintro ⟨s, hs, h⟩
    simp only [storeScan_eq] at h
    split at h
    · exact absurd h (by simp)
    · rename_i hne
      rw [Option.some_inj] at h
      subst h
      exact ⟨hs, hne, rfl, rfl⟩
  · rintro ⟨hmem, hne, htot, hits⟩
    refine ⟨e.1, hmem, ?_⟩
    simp only [storeScan_eq]
    rw [if_neg hne, Option.some_inj]
    obtain ⟨s', tot, its⟩ := e
    simp only at htot hits hne ⊢
    rw [htot, hits]
    rfl

/-- If an offer list of some product contains an offer of `store` then the
store's item list is nonempty. -/
theorem itemsInStore_ne_nil {store : String} {po : PriceOptions}
    {p : String × List PriceOption} (hp : p ∈ po)
    {o : PriceOption} (ho : optionInStore store p.2 = some o) :
    itemsInStore store po ≠ [] := by
  have : o ∈ itemsInStore store po :=
    List.mem_filterMap.mpr ⟨p, hp, ho⟩
  intro hnil
  rw [hnil] at this
  exact List.not_mem_nil o this

/-- A store whose item list is nonempty appears in the set of all store
names. -/
theorem store_mem_allSupermarkets {store : String} {po : PriceOptions}
    (h : itemsInStore store po ≠ []) : store ∈ allSupermarkets po := by
  obtain ⟨o, ho⟩ := List.exists_mem_of_ne_nil _ h
  obtain ⟨p, hp, hfind⟩ := List.mem_filterMap.mp ho
  have homem : o ∈ p.2 := List.mem_of_find?_eq_some hfind
  have hname : o.supermarket_name = store := by
    have := List.find?_some hfind
    exact of_decide_eq_true (by simpa using this)
  exact mem_allSupermarkets.mpr ⟨p, hp, o, homem, hname⟩

/-- A store with a nonempty item list yields a candidate entry. -/
theorem entry_of_itemsInStore {store : String} {po : PriceOptions}
    (h : itemsInStore store po ≠ []) :
    (store, storeTotal store po, itemsInStore store po) ∈ supermarketEntries po :=
  mem_supermarketEntries.mpr ⟨store_mem_allSupermarkets h, h, rfl, rfl⟩

theorem keys_addPick (gs : List (String × List PriceOption)) (o : PriceOption) :
    (addPick gs o).map (·.1) =
      if o.supermarket_name ∈ gs.map (·.1) then gs.map (·.1)
      else gs.map (·.1) ++ [o.supermarket_name] := by
  induction gs with
  | nil => simp [addPick]
  | cons g rest ih =>
    obtain ⟨s, items⟩ := g
    rw [addPick]
    by_cases hs : s = o.supermarket_name
    · subst hs
      simp
    · rw [if_neg hs]
      simp only [List.map_cons, ih]
      by_cases hmem : o.supermarket_name ∈ rest.map (·.1)
      · rw [if_pos hmem, if_pos (List.mem_cons_of_mem s hmem)]
      · rw [if_neg hmem, if_neg ?_]
        · simp
        · intro hc
          rcases List.mem_cons.mp hc with hc | hc
          · exact hs hc.symm
          · exact hmem hc

theorem addPick_good {gs : List (String × List PriceOption)} {o : PriceOption}
    (h : goodGroups gs) : goodGroups (addPick gs o) := by
  obtain ⟨hnodup, hinv⟩ := h
  constructor
  · rw [keys_addPick]
    split
    · exact hnodup
    · rename_i hmem
      simp [List.nodup_append, hnodup, hmem]
  · induction gs with
    | nil =>
      intro g hg o' ho'
      rw [addPick] at hg
      rcases List.mem_cons.mp hg with hg | hg
      · subst hg
        simp only [List.mem_singleton] at ho'
        subst ho'
        rfl
      · exact absurd hg (List.not_mem_nil g)
    | cons g₀ rest ih =>
      obtain ⟨s, items⟩ := g₀
      intro g hg o' ho'
      rw [addPick] at hg
      split at hg
      · rename_i hs
        rcases List.mem_cons.mp hg with hg | hg
        · subst hg
          simp only at ho' ⊢
          rcases List.mem_append.mp ho' with ho' | ho'
          · exact hinv (s, items) (List.mem_cons_self _ _) o' ho'
          · rcases List.mem_cons.mp ho' with ho' | ho'
            · rw [ho', hs]
            · exact absurd ho' (List.not_mem_nil o')
        · exact hinv g (List.mem_cons_of_mem _ hg) o' ho'
      · rcases List.mem_cons.mp hg with hg | hg
        · subst hg
          exact hinv (s, items) (List.mem_cons_self _ _) o' ho'
        · refine ih ?_ ?_ g hg o' ho'
          · exact (List.nodup_cons.mp hnodup).2
          · intro g' hg' o'' ho''
            exact hinv g' (List.mem_cons_of_mem _ hg') o'' ho''

theorem foldl_addPick_good {picks : List PriceOption}
    {gs : List (String × List PriceOption)} (h : goodGroups gs) :
    goodGroups (picks.foldl addPick gs) := by
  induction picks generalizing gs with
  | nil => exact h
  | cons q qs ih => exact ih (addPick_good h)

theorem groupByStore_good (picks : List PriceOption) :
    goodGroups (groupByStore picks) :=
  foldl_addPick_good ⟨List.nodup_nil, by simp⟩

/-- Each inserted offer is present in the group of its own store. -/
theorem mem_addPick_self (gs : List (String × List PriceOption)) (o : PriceOption) :
    ∃ g ∈ addPick gs o, g.1 = o.supermarket_name ∧ o ∈ g.2 := by
  induction gs with
  | nil => exact ⟨(o.supermarket_name, [o]), by simp [addPick], rfl, by simp⟩
  | cons g₀ rest ih =>
    obtain ⟨s, items⟩ := g₀
    rw [addPick]
    by_cases hs : s = o.supermarket_name
    · rw [if_pos hs]
      exact ⟨(s, items ++ [o]), List.mem_cons_self _ _, hs, by simp⟩
    · rw [if_neg hs]
      obtain ⟨g, hg, h1, h2⟩ := ih
      exact ⟨g, List.mem_cons_of_mem _ hg, h1, h2⟩

/-- Offers already grouped stay in a group of the same store with the same
membership when another offer is inserted. -/
theorem mem_addPick_mono {gs : List (String × List PriceOption)}
    {st : String} {x : PriceOption} (h : ∃ g ∈ gs, g.1 = st ∧ x ∈ g.2)
    (o : PriceOption) : ∃ g ∈ addPick gs o, g.1 = st ∧ x ∈ g.2 := by
  induction gs with
  | nil =>
    obtain ⟨g, hg, -⟩ := h
    exact absurd hg (List.not_mem_nil g)
  | cons g₀ rest ih =>
    obtain ⟨s, items⟩ := g₀
    obtain ⟨g, hg, h1, h2⟩ := h
    rw [addPick]
    rcases List.mem_cons.mp hg with hg | hg
    · subst hg
      by_cases hs : s = o.supermarket_name
      · rw [if_pos hs]
        refine ⟨(s, items ++ [o]), List.mem_cons_self _ _, h1, ?_⟩
        exact List.mem_append_left _ h2
      · rw [if_neg hs]
        exact ⟨(s, items), List.mem_cons_self _ _, h1, h2⟩
    · by_cases hs : s = o.supermarket_name
      · rw [if_pos hs]
        exact ⟨g, List.mem_cons_of_mem _ hg, h1, h2⟩
      · rw [if_neg hs]
        obtain ⟨g', hg', h1', h2'⟩ := ih ⟨g, hg, h1, h2⟩
        exact ⟨g', List.mem_cons_of_mem _ hg', h1', h2'⟩

theorem foldl_addPick_mono {picks : List PriceOption}
    {gs : List (String × List PriceOption)} {st : String} {x : PriceOption}
    (h : ∃ g ∈ gs, g.1 = st ∧ x ∈ g.2) :
    ∃ g ∈ picks.foldl addPick gs, g.1 = st ∧ x ∈ g.2 := by
  induction picks generalizing gs with
  | nil => exact h
  | cons q qs ih => exact ih (mem_addPick_mono h q)

/-- Every picked offer ends up in the group of its store. -/
theorem mem_groupByStore {picks : List PriceOption} {o : PriceOption}
    (h : o ∈ picks) :
    ∃ g ∈ groupByStore picks, g.1 = o.supermarket_name ∧ o ∈ g.2 := by
  rw [groupByStore]
  obtain ⟨l₁, l₂, rfl⟩ := List.append_of_mem h
  rw [List.foldl_append, List.foldl_cons]
  exact foldl_addPick_mono (mem_addPick_self _ o)

theorem groupsSum_addPick (gs : List (String × List PriceOption)) (o : PriceOption) :
    groupsSum (addPick gs o) = groupsSum gs + o.price := by
  induction gs with
  | nil => simp [addPick, groupsSum]
  | cons g₀ rest ih =>
    obtain ⟨s, items⟩ := g₀
    rw [addPick]
    split
    · simp [groupsSum]
      ring
    · simp only [groupsSum, List.map_cons, List.sum_cons] at ih ⊢
      rw [ih]
      ring

theorem groupsSum_foldl (picks : List PriceOption)
    (gs : List (String × List PriceOption)) :
    groupsSum (picks.foldl addPick gs) = groupsSum gs + (picks.map (·.price)).sum := by
  induction picks generalizing gs with
  | nil => simp
  | cons q qs ih =>
    rw [List.foldl_cons, ih, groupsSum_addPick]
    simp
    ring

/-- The grand total over all groups equals the sum of the picked prices. -/
theorem groupsSum_groupByStore (picks : List PriceOption) :
    groupsSum (groupByStore picks) = (picks.map (·.price)).sum := by
  rw [groupByStore, groupsSum_foldl]
  simp [groupsSum]

/-- The prices of the picked offers are the per-product minimum prices. -/
theorem picks_prices (po : PriceOptions) :
    ((bestPrices po).map (·.2)).map (·.price) = minPrices po := by
  induction po with
  | nil => rfl
  | cons p ps ih =>
    cases hp : p.2 with
    | nil =>
      have hbp : bestPrices (p :: ps) = bestPrices ps := by
        simp [bestPrices, List.filterMap_cons, hp]
      have hmp : minPrices (p :: ps) = minPrices ps := by
        simp [minPrices, List.filterMap_cons, hp]
      rw [hbp, hmp]
      exact ih
    | cons o os =>
      have hbp : bestPrices (p :: ps) =
          (p.1, pyMinBy (fun x => x.price) o os) :: bestPrices ps := by
        simp [bestPrices, List.filterMap_cons, hp]
      have hmp : minPrices (p :: ps) =
          ((os.map (fun x : PriceOption => x.price)).foldl min o.price) :: minPrices ps := by
        simp [minPrices, List.filterMap_cons, hp]
      have hkey : (pyMinBy (fun x : PriceOption => x.price) o os).price =
          (os.map (fun x : PriceOption => x.price)).foldl min o.price :=
        pyMinBy_key (fun x => x.price) o os
      rw [hbp, hmp, List.map_cons, List.map_cons, hkey, ih]

theorem foldl_max_mem (x : ℤ) (xs : List ℤ) : xs.foldl max x ∈ x :: xs := by
  induction xs generalizing x with
  | nil => simp
  | cons y ys ih =>
    rw [List.foldl_cons]
    rcases List.mem_cons.mp (ih (max x y)) with h | h
    · rcases max_choice x y with hm | hm
      · exact List.mem_cons.mpr (Or.inl (h.trans hm))
      · exact List.mem_cons_of_mem x (List.mem_cons.mpr (Or.inl (h.trans hm)))
    · exact List.mem_cons_of_mem x (List.mem_cons_of_mem y h)

/-- For a nonempty found-count dict the maximum is attained, so the list of
stores attaining it is nonempty: the `mercado_max_itens[0]` index in the r2
branch cannot fail. -/
theorem mercadoMaxItens_ne_nil {epm : List (String × ℤ)} (h : epm ≠ []) :
    mercadoMaxItens epm ≠ [] := by
  obtain ⟨e, es, rfl⟩ := List.exists_cons_of_ne_nil h
  have hmem : maxItensMercado (e :: es) ∈ (e :: es).map (·.2) := by
    rw [maxItensMercado]
    have := foldl_max_mem e.2 (es.map (·.2))
    simpa using this
  obtain ⟨p, hp, hval⟩ := List.mem_map.mp hmem
  have : p ∈ (e :: es).filter (fun p => p.2 == maxItensMercado (e :: es)) :=
    List.mem_filter.mpr ⟨hp, by simp [hval]⟩
  intro hnil
  rw [mercadoMaxItens] at hnil
  have hfil : (e :: es).filter (fun p => p.2 == maxItensMercado (e :: es)) = [] :=
    List.map_eq_nil_iff.mp hnil
  rw [hfil] at this
  exact List.not_mem_nil p this

/-- Closed form of a successful multi-store run, shared by the theorems about
`find_best_multi_store`. -/
theorem find_best_multi_store_run (s : OptimizationState) (r₀ : Recommendation)
    (h : s.recommendation = some r₀) :
    find_best_multi_store s =
      { price_options := s.price_options
        products_not_found := s.products_not_found
        total_requested_items := s.total_requested_items
        recommendation := some
          { r₀ with
            multi_store_option := multiBundles s.price_options
            savings := r₀.single_store_option.total_price - (minPrices s.price_options).sum
            savings_percentage :=
              if r₀.single_store_option.total_price > 0 then
                (r₀.single_store_option.total_price - (minPrices s.price_options).sum) /
                  r₀.single_store_option.total_price * 100
              else 0
            total_requested_items := s.total_requested_items }
        error := none } := by
  unfold find_best_multi_store
  rw [h, ← picks_prices]
  rfl

/-- The store names of the multi-store bundles are pairwise distinct. -/
theorem multiBundles_names_nodup (po : PriceOptions) :
    ((multiBundles po).map (·.supermarket_name)).Nodup := by
  have hgood := groupByStore_good ((bestPrices po).map (·.2))
  have hmaps : (multiBundles po).map (·.supermarket_name) =
      (groupByStore ((bestPrices po).map (·.2))).map (·.1) := by
    rw [multiBundles, List.map_map]
    rfl
  rw [hmaps]
  exact hgood.1

/-- Each multi-store bundle's total is the sum of its items' prices. -/
theorem multiBundles_totals (po : PriceOptions) :
    ∀ b ∈ multiBundles po, b.total_price = (b.items.map (·.price)).sum := by
  intro b hb
  obtain ⟨g, hg, rfl⟩ := List.mem_map.mp hb
  rfl

/-- The multi-store grand total is the sum of the per-product minimum
prices. -/
theorem multiBundles_grand_total (po : PriceOptions) :
    ((multiBundles po).map (·.total_price)).sum = (minPrices po).sum := by
  have hmaps : (multiBundles po).map (·.total_price) =
      (groupByStore ((bestPrices po).map (·.2))).map
        (fun g => (g.2.map (·.price)).sum) := by
    rw [multiBundles, List.map_map]
    rfl
  rw [hmaps]
  have hg := groupsSum_groupByStore ((bestPrices po).map (·.2))
  rw [groupsSum] at hg
  rw [hg, picks_prices]

/-- Every product with at least one offer is covered by exactly one bundle:
the bundle of the store of its first cheapest offer. -/
theorem multiBundles_coverage (po : PriceOptions) :
    ∀ p ∈ po, p.2 ≠ [] →
      ∃ o l₁ l₂, p.2 = l₁ ++ o :: l₂ ∧
        (∀ y ∈ l₁, o.price < y.price) ∧
        (∀ y ∈ l₂, o.price ≤ y.price) ∧
        ∃ b ∈ multiBundles po,
          b.supermarket_name = o.supermarket_name ∧ o ∈ b.items ∧
          ∀ b' ∈ multiBundles po, o ∈ b'.items → b' = b := by
  intro p hp hne
  obtain ⟨o₀, os, hpo⟩ := List.exists_cons_of_ne_nil hne
  have hmem_bp : (p.1, pyMinBy (fun x : PriceOption => x.price) o₀ os) ∈ bestPrices po := by
    rw [bestPrices]
    apply List.mem_filterMap.mpr
    refine ⟨p, hp, ?_⟩
    rw [hpo]
  have hmem_picks : pyMinBy (fun x : PriceOption => x.price) o₀ os ∈
      (bestPrices po).map (·.2) :=
    List.mem_map.mpr ⟨(p.1, pyMinBy (fun x : PriceOption => x.price) o₀ os), hmem_bp, rfl⟩
  obtain ⟨g, hg, hg1, hg2⟩ := mem_groupByStore hmem_picks
  have hgood := groupByStore_good ((bestPrices po).map (·.2))
  obtain ⟨l₁, l₂, hsplit, hlt, hle⟩ :=
    pyMinBy_first_min (fun x : PriceOption => x.price) o₀ os
  refine ⟨pyMinBy (fun x : PriceOption => x.price) o₀ os, l₁, l₂,
    by rw [hpo, hsplit], hlt, hle, ?_⟩
  refine ⟨SupermarketOption.mk g.1 ((g.2.map (·.price)).sum) g.2,
    List.mem_map.mpr ⟨g, hg, rfl⟩, hg1, hg2, ?_⟩
  intro b' hb' hob'
  obtain ⟨g', hg', rfl⟩ := List.mem_map.mp hb'
  have hname : (pyMinBy (fun x : PriceOption => x.price) o₀ os).supermarket_name = g'.1 :=
    hgood.2 g' hg' _ hob'
  have hgg : g' = g := by
    apply List.inj_on_of_nodup_map hgood.1 hg' hg
    exact hname.symm.trans hg1.symm
  rw [hgg]

/-- C1: for every offer index in which at least one store carries at least one
requested product, `find_best_single_store` succeeds and returns a store whose
item list is exactly the first-matching offers of that store (one per carried
product, duplicates per product and store ignored), whose bundle total is the
sum of those offers' prices, and whose total is minimal among all stores that
carry at least one requested product. -/
theorem single_store_selector_optimal (s : OptimizationState)
    (h : ∃ p ∈ s.price_options, p.2 ≠ []) :
    (find_best_single_store s).error = none ∧
    ∃ r, (find_best_single_store s).recommendation = some r ∧
      r.single_store_option.items =
        itemsInStore r.single_store_option.supermarket_name s.price_options ∧
      itemsInStore r.single_store_option.supermarket_name s.price_options ≠ [] ∧
      r.single_store_option.total_price =
        storeTotal r.single_store_option.supermarket_name s.price_options ∧
      ∀ store : String, itemsInStore store s.price_options ≠ [] →
        r.single_store_option.total_price ≤ storeTotal store s.price_options := by
  obtain ⟨p, hp, hne⟩ := h
  obtain ⟨o, os, hpo⟩ := List.exists_cons_of_ne_nil hne
  have hfind : optionInStore o.supermarket_name p.2 = some o := by
    rw [hpo, optionInStore]
    rw [List.find?_cons_of_pos]
    simp
  have hne0 : itemsInStore o.supermarket_name s.price_options ≠ [] :=
    itemsInStore_ne_nil hp hfind
  have hentry := entry_of_itemsInStore hne0
  cases hE : supermarketEntries s.price_options with
  | nil =>
    rw [hE] at hentry
    exact absurd hentry (List.not_mem_nil _)
  | cons e es =>
    have hrun : find_best_single_store s =
        { price_options := s.price_options
          products_not_found := s.products_not_found
          total_requested_items := s.total_requested_items
          recommendation := some
            { single_store_option :=
                { supermarket_name := (pyMinBy (·.2.1) e es).1
                  total_price := (pyMinBy (·.2.1) e es).2.1
                  items := (pyMinBy (·.2.1) e es).2.2 }
              multi_store_option := []
              savings := 0
              savings_percentage := 0
              products_not_found := s.products_not_found
              total_requested_items := s.total_requested_items }
          error := none } := by
      unfold find_best_single_store
      rw [hE]
    have hbest_mem : pyMinBy (·.2.1) e es ∈ supermarketEntries s.price_options := by
      rw [hE]
      exact pyMinBy_mem _ e es
    obtain ⟨hmem, hne', htot, hits⟩ := mem_supermarketEntries.mp hbest_mem
    rw [hrun]
    refine ⟨rfl, _, rfl, hits, ?_, htot, ?_⟩
    · rw [← hits]
      intro hnil
      rw [hnil] at hits
      exact hne' hits.symm
    · intro store hst
      have hent := entry_of_itemsInStore hst
      rw [hE] at hent
      have hle := pyMinBy_le (·.2.1) e es _ hent
      exact hle

theorem single_store_selector_optimal_witness :
    (find_best_single_store demoState).error = none ∧
    ∃ r, (find_best_single_store demoState).recommendation = some r ∧
      r.single_store_option.items =
        itemsInStore r.single_store_option.supermarket_name demoState.price_options ∧
      itemsInStore r.single_store_option.supermarket_name demoState.price_options ≠ [] ∧
      r.single_store_option.total_price =
        storeTotal r.single_store_option.supermarket_name demoState.price_options ∧
      ∀ store : String, itemsInStore store demoState.price_options ≠ [] →
        r.single_store_option.total_price ≤ storeTotal store demoState.price_options :=
  single_store_selector_optimal demoState
    ⟨("leite", [{ product_name := "leite", price := 4, supermarket_name := "Mercado A" }]),
      by simp [demoState], by simp⟩

/-- C6: when no store carries any requested product (every offer list is
empty), the single-store selection fails: the recommendation is absent and the
error field of the returned state carries the no-viable-store message. -/
theorem no_viable_store_failure (s : OptimizationState)
    (h : ∀ p ∈ s.price_options, p.2 = []) :
    (find_best_single_store s).recommendation = none ∧
      (find_best_single_store s).error = some noStoreMsg := by
  have hall : allSupermarkets s.price_options = [] := by
    by_contra hne
    obtain ⟨t, ht⟩ := List.exists_mem_of_ne_nil _ hne
    obtain ⟨p, hp, o, ho, -⟩ := mem_allSupermarkets.mp ht
    rw [h p hp] at ho
    exact List.not_mem_nil o ho
  have hE : supermarketEntries s.price_options = [] := by
    rw [supermarketEntries, hall]
    rfl
  unfold find_best_single_store
  rw [hE]
  exact ⟨rfl, rfl⟩

theorem no_viable_store_failure_witness :
    (find_best_single_store emptyOffersState).recommendation = none ∧
      (find_best_single_store emptyOffersState).error = some noStoreMsg :=
  no_viable_store_failure emptyOffersState (by decide)

/-- C7: running the multi-store selector on a state whose single-store
recommendation is absent fails with the precedence-violation error and
produces no multi-store result. -/
theorem precedence_violation_failure (s : OptimizationState)
    (h : s.recommendation = none) :
    (find_best_multi_store s).recommendation = none ∧
      (find_best_multi_store s).error = some precedenceMsg := by
  unfold find_best_multi_store
  rw [h]
  exact ⟨rfl, rfl⟩

theorem precedence_violation_failure_witness :
    (find_best_multi_store noRecState).recommendation = none ∧
      (find_best_multi_store noRecState).error = some precedenceMsg :=
  precedence_violation_failure noRecState rfl

/-- C10: whenever either selector returns an error state, the input's
`price_options`, `products_not_found` and `total_requested_items` are carried
through unchanged; the single-store selector additionally clears the
recommendation on its error path. -/
theorem error_path_preserves_state (s : OptimizationState) :
    ((find_best_single_store s).error ≠ none →
      (find_best_single_store s).price_options = s.price_options ∧
      (find_best_single_store s).products_not_found = s.products_not_found ∧
      (find_best_single_store s).total_requested_items = s.total_requested_items ∧
      (find_best_single_store s).recommendation = none) ∧
    ((find_best_multi_store s).error ≠ none →
      (find_best_multi_store s).price_options = s.price_options ∧
      (find_best_multi_store s).products_not_found = s.products_not_found ∧
      (find_best_multi_store s).total_requested_items = s.total_requested_items) := by
  constructor
  · intro herr
    cases hE : supermarketEntries s.price_options with
    | nil =>
      unfold find_best_single_store
      rw [hE]
      exact ⟨rfl, rfl, rfl, rfl⟩
    | cons e es =>
      exfalso
      apply herr
      unfold find_best_single_store
      rw [hE]
  · intro herr
    cases hR : s.recommendation with
    | none =>
      unfold find_best_multi_store
      rw [hR]
      exact ⟨rfl, rfl, rfl⟩
    | some r₀ =>
      exfalso
      apply herr
      rw [find_best_multi_store_run s r₀ hR]

theorem error_path_preserves_state_witness :
    (find_best_single_store emptyOffersState).error ≠ none ∧
    (find_best_single_store emptyOffersState).price_options = emptyOffersState.price_options ∧
    (find_best_single_store emptyOffersState).recommendation = none ∧
    (find_best_multi_store emptyOffersState).error ≠ none ∧
    (find_best_multi_store emptyOffersState).total_requested_items =
      emptyOffersState.total_requested_items := by
  obtain ⟨ha, hb⟩ := error_path_preserves_state emptyOffersState
  have h1 : (find_best_single_store emptyOffersState).error ≠ none := by decide
  have h2 : (find_best_multi_store emptyOffersState).error ≠ none := by decide
  exact ⟨h1, (ha h1).1, (ha h1).2.2.2, h2, (hb h2).2.2⟩

/-- C2: on a state with a single-store recommendation present, the multi-store
selection covers every product that has at least one offer exactly once,
assigning it to the store of its cheapest offer (first minimum in offer-list
order on ties); no two bundles share a store name, each bundle total is the
sum of its items' prices, and the grand total is the sum of the per-product
minimum prices. -/
theorem multi_store_coverage (s : OptimizationState) (r₀ : Recommendation)
    (h : s.recommendation = some r₀) :
    ∃ r, (find_best_multi_store s).recommendation = some r ∧
      (r.multi_store_option.map (·.supermarket_name)).Nodup ∧
      (∀ b ∈ r.multi_store_option, b.total_price = (b.items.map (·.price)).sum) ∧
      (r.multi_store_option.map (·.total_price)).sum = (minPrices s.price_options).sum ∧
      ∀ p ∈ s.price_options, p.2 ≠ [] →
        ∃ o l₁ l₂, p.2 = l₁ ++ o :: l₂ ∧
          (∀ y ∈ l₁, o.price < y.price) ∧
          (∀ y ∈ l₂, o.price ≤ y.price) ∧
          ∃ b ∈ r.multi_store_option,
            b.supermarket_name = o.supermarket_name ∧ o ∈ b.items ∧
            ∀ b' ∈ r.multi_store_option, o ∈ b'.items → b' = b := by
  rw [find_best_multi_store_run s r₀ h]
  exact ⟨_, rfl, multiBundles_names_nodup s.price_options,
    multiBundles_totals s.price_options, multiBundles_grand_total s.price_options,
    multiBundles_coverage s.price_options⟩

theorem multi_store_coverage_witness :
    ∃ r, (find_best_multi_store demoStateWithRec).recommendation = some r ∧
      (r.multi_store_option.map (·.supermarket_name)).Nodup ∧
      (∀ b ∈ r.multi_store_option, b.total_price = (b.items.map (·.price)).sum) ∧
      (r.multi_store_option.map (·.total_price)).sum =
        (minPrices demoStateWithRec.price_options).sum ∧
      ∀ p ∈ demoStateWithRec.price_options, p.2 ≠ [] →
        ∃ o l₁ l₂, p.2 = l₁ ++ o :: l₂ ∧
          (∀ y ∈ l₁, o.price < y.price) ∧
          (∀ y ∈ l₂, o.price ≤ y.price) ∧
          ∃ b ∈ r.multi_store_option,
            b.supermarket_name = o.supermarket_name ∧ o ∈ b.items ∧
            ∀ b' ∈ r.multi_store_option, o ∈ b'.items → b' = b :=
  multi_store_coverage demoStateWithRec demoRec rfl

/-- C3: the reported savings is the single-store total minus the multi-store
grand total, and the savings percentage is savings divided by the single-store
total times 100 when that total is positive, and 0 when it is zero. -/
theorem savings_formula (s : OptimizationState) (r₀ : Recommendation)
    (h : s.recommendation = some r₀) :
    ∃ r, (find_best_multi_store s).recommendation = some r ∧
      r.savings = r₀.single_store_option.total_price - (minPrices s.price_options).sum ∧
      (0 < r₀.single_store_option.total_price →
        r.savings_percentage = r.savings / r₀.single_store_option.total_price * 100) ∧
      (r₀.single_store_option.total_price = 0 → r.savings_percentage = 0) := by
  rw [find_best_multi_store_run s r₀ h]
  refine ⟨_, rfl, rfl, ?_, ?_⟩
  · intro hpos
    exact if_pos hpos
  · intro hzero
    refine if_neg ?_
    rw [hzero]
    exact lt_irrefl 0

theorem savings_formula_witness :
    ∃ r, (find_best_multi_store demoStateWithRec).recommendation = some r ∧
      r.savings = demoRec.single_store_option.total_price -
        (minPrices demoStateWithRec.price_options).sum ∧
      (0 < demoRec.single_store_option.total_price →
        r.savings_percentage = r.savings / demoRec.single_store_option.total_price * 100) ∧
      (demoRec.single_store_option.total_price = 0 → r.savings_percentage = 0) :=
  savings_formula demoStateWithRec demoRec rfl

/-- C8 counterexample: fed a negative single-store total (-10) and a negative
multi-store total (-5), the savings computation does not fail: no error is
signalled and a numeric (delta, percentage) result is returned. -/
theorem savings_negative_total_not_rejected :
    (find_best_multi_store negState).error = none ∧
    ∃ r, (find_best_multi_store negState).recommendation = some r ∧
      r.savings = -5 ∧ r.savings_percentage = 0 := by
  have hS : negRec.single_store_option.total_price = -10 := rfl
  have hmin : (minPrices negState.price_options).sum = -5 := by
    norm_num [minPrices, negState, negOffer, List.filterMap_cons]
  have hneg : ¬ negRec.single_store_option.total_price > 0 := by
    rw [hS]
    norm_num
  rw [find_best_multi_store_run negState negRec rfl]
  refine ⟨rfl, _, rfl, ?_, ?_⟩
  · show negRec.single_store_option.total_price - (minPrices negState.price_options).sum = -5
    rw [hS, hmin]
    norm_num
  · show (if negRec.single_store_option.total_price > 0 then
        (negRec.single_store_option.total_price - (minPrices negState.price_options).sum) /
          negRec.single_store_option.total_price * 100
      else 0) = 0
    rw [if_neg hneg]

/-- C8 amended: the savings computation performs no validation of its inputs:
for any totals, including negative ones, it returns delta equal to the
single-store total minus the multi-store total, with percentage given by the
positive-denominator formula and 0 otherwise, and never signals an error. -/
theorem savings_no_validation (s : OptimizationState) (r₀ : Recommendation)
    (h : s.recommendation = some r₀) :
    (find_best_multi_store s).error = none ∧
    ∃ r, (find_best_multi_store s).recommendation = some r ∧
      r.savings = r₀.single_store_option.total_price - (minPrices s.price_options).sum ∧
      r.savings_percentage =
        if r₀.single_store_option.total_price > 0 then
          (r₀.single_store_option.total_price - (minPrices s.price_options).sum) /
            r₀.single_store_option.total_price * 100
        else 0 := by
  rw [find_best_multi_store_run s r₀ h]
  exact ⟨rfl, _, rfl, rfl, rfl⟩

theorem savings_no_validation_witness :
    (find_best_multi_store negState).error = none ∧
    ∃ r, (find_best_multi_store negState).recommendation = some r ∧
      r.savings = negRec.single_store_option.total_price -
        (minPrices negState.price_options).sum ∧
      r.savings_percentage =
        if negRec.single_store_option.total_price > 0 then
          (negRec.single_store_option.total_price - (minPrices negState.price_options).sum) /
            negRec.single_store_option.total_price * 100
        else 0 :=
  savings_no_validation negState negRec rfl

/-- C4: the scenario classifier is total: for every input it returns exactly
one classification (scenario code from the fixed enumeration, justification,
recommendation and detail bag) and never reaches the one raising operation
(the list index in the r2 branch). -/
theorem classifier_total (total_itens itens_encontrados : ℤ)
    (epm : List (String × ℤ)) (pc pd : ℚ) (nome : String) :
    ∃ c, classificar_cenario total_itens itens_encontrados epm pc pd nome = .ok c ∧
      c.cenario ∈ ["r0", "r1", "r2", "r3", "r4", "r5", "r6", "r7", "r7b", "r8"] := by
  by_cases h0 : itens_encontrados = 0
  · rw [classificar_cenario, if_pos h0]
    exact ⟨_, rfl, by simp⟩
  · rw [classificar_cenario, if_neg h0]
    by_cases hepm : epm = []
    · subst hepm
      split_ifs <;>
        first
          | exact ⟨_, rfl, by simp⟩
          | (exfalso
             simp only [maxItensMercado, Int.cast_zero] at *
             linarith)
    · split_ifs <;>
        first
          | exact ⟨_, rfl, by simp⟩
          | (cases hm : mercadoMaxItens epm with
             | nil => exact absurd hm (mercadoMaxItens_ne_nil hepm)
             | cons m ms => exact ⟨_, rfl, by simp⟩)

/-- C9: with at least one item found and no store holding every requested
item, the classifier always lands in one of the dispersion branches r1, r2,
r3 or r4; the r5 fallback is never reached. -/
theorem no_fallback_scenario (total_itens itens_encontrados : ℤ)
    (epm : List (String × ℤ)) (pc pd : ℚ) (nome : String)
    (h1 : 1 ≤ itens_encontrados)
    (h2 : ∀ p ∈ epm, p.2 ≠ total_itens) :
    ∃ c, classificar_cenario total_itens itens_encontrados epm pc pd nome = .ok c ∧
      c.cenario ∈ ["r1", "r2", "r3", "r4"] := by
  have h0 : ¬ itens_encontrados = 0 := by omega
  have hcomp : mercadoCompleto total_itens epm = [] := by
    rw [mercadoCompleto, List.map_eq_nil_iff, List.filter_eq_nil_iff]
    intro p hp
    simpa using h2 p hp
  rw [classificar_cenario, if_neg h0, if_pos hcomp]
  by_cases h03 : (maxItensMercado epm : ℚ) ≤ (total_itens : ℚ) * 0.3
  · rw [if_pos h03]
    exact ⟨_, rfl, by simp⟩
  · rw [if_neg h03]
    by_cases h07 : (maxItensMercado epm : ℚ) ≤ (total_itens : ℚ) * 0.7
    · rw [if_pos h07]
      cases hm : mercadoMaxItens epm with
      | nil =>
        by_cases hepm : epm = []
        · exfalso
          subst hepm
          simp only [maxItensMercado, Int.cast_zero] at h03 h07
          linarith
        · exact absurd hm (mercadoMaxItens_ne_nil hepm)
      | cons m ms => exact ⟨_, rfl, by simp⟩
    · rw [if_neg h07]
      have h07' : (maxItensMercado epm : ℚ) ≥ (total_itens : ℚ) * 0.7 :=
        le_of_lt (lt_of_not_le h07)
      rw [if_pos h07']
      by_cases hple : pc ≤ pd
      · rw [if_pos hple]
        exact ⟨_, rfl, by simp⟩
      · rw [if_neg hple]
        by_cases hp10 : percentualDiferenca pc pd > 10
        · rw [if_pos hp10]
          exact ⟨_, rfl, by simp⟩
        · rw [if_neg hp10]
          exact ⟨_, rfl, by simp⟩

theorem no_fallback_scenario_witness :
    ∃ c, classificar_cenario 10 3 [("Mercado A", 3)] 100 90 "Mercado A" = .ok c ∧
      c.cenario ∈ ["r1", "r2", "r3", "r4"] :=
  no_fallback_scenario 10 3 [("Mercado A", 3)] 100 90 "Mercado A"
    (by decide) (by decide)

/-- C5: with 5 items requested, one store complete with all 5, a single-store
total of 50.00 and a multi-store total of 49.99, the classifier returns the
"prices effectively tied" scenario r8 and its recommendation names the
complete store. -/
theorem e2e_precos_empatados :
    classificar_cenario 5 5 [("Mercado A", 5)] 50 precoDistribuidoE2E1 "Mercado A" =
      .ok ⟨"r8", "Preços praticamente iguais entre as opções",
        analiseBase ++ " Sendo assim, escolha o mercado mais conveniente para você. O " ++ "Mercado A" ++ " tem todos os itens.",
        some (detalhesDict 50 precoDistribuidoE2E1 "Mercado A" 5 5)⟩ := by
  have h0 : ¬ ((5:ℤ) = 0) := by decide
  have hcomp : ¬ (mercadoCompleto 5 [("Mercado A", (5:ℤ))] = []) := by
    simp [mercadoCompleto]
  have habs : |(50:ℚ) - precoDistribuidoE2E1| < 0.01 := by
    rw [precoDistribuidoE2E1]
    rw [abs_of_pos (show (0:ℚ) < 50 - 7035467042882847 / 140737488355328 by norm_num)]
    norm_num
  rw [classificar_cenario, if_neg h0, if_neg hcomp, if_pos habs]
  rfl

end SmartShopping
